import Mathlib

/-!
Verification of the repository-layout, repository-locator and
repository-initializer core of a small git implementation.

The embedding models filesystem paths as lists of components (the empty
list is the filesystem root), and the filesystem as an association list
from paths to entries (directories, or files with string contents).
The Rust standard-library primitives used by the code
(`fs::create_dir_all`, `fs::File::create`, `Write::write_all`,
`Path::exists`, `Path::is_dir`, `Path::ancestors`) are embedded as pure
state-passing functions on that model, and the three source functions
(`Repository` and its accessors, `find_repo` / `contains_git_dir`, and
`initialize_git_repository`, here `init_git_repository`) are translated
on top of them.
-/

set_option autoImplicit false

namespace RustGit

/-- A filesystem path, as its list of components.  `[]` is the
filesystem root; `["a", "b"]` is the path `/a/b`. -/
abbrev Path := List String

/-- A filesystem entry: a directory, or a file with byte contents
(modelled as a string). -/
inductive Entry where
  | dir : Entry
  | file (content : String) : Entry
deriving DecidableEq, Repr

/-- The filesystem: a finite map from paths to entries, as an
association list. -/
abbrev FS := List (Path × Entry)

namespace FS

/-- Look up the entry stored at path `p`. -/
def lookup (fs : FS) (p : Path) : Option Entry :=
  match fs with
  | [] => none
  | (q, e) :: rest => if q = p then some e else lookup rest p

/-- Store entry `e` at path `p`, replacing any previous entry there. -/
def insert (fs : FS) (p : Path) (e : Entry) : FS :=
  match fs with
  | [] => [(p, e)]
  | (q, e0) :: rest => if q = p then (p, e) :: rest else (q, e0) :: insert rest p e

/-- `Path::exists`: some entry is present at `p`. -/
def existsPath (fs : FS) (p : Path) : Bool :=
  (lookup fs p).isSome

/-- `Path::is_dir`: the entry at `p` exists and is a directory. -/
def isDir (fs : FS) (p : Path) : Bool :=
  lookup fs p = some Entry.dir

@[simp] theorem lookup_insert_self (fs : FS) (p : Path) (e : Entry) :
    lookup (insert fs p e) p = some e := by
  induction fs with
  | nil => simp [insert, lookup]
  | cons hd tl ih =>
    obtain ⟨q, e0⟩ := hd
    by_cases h : q = p <;> simp [insert, lookup, h, ih]

theorem lookup_insert_of_ne (fs : FS) (p q : Path) (e : Entry) (h : q ≠ p) :
    lookup (insert fs p e) q = lookup fs q := by
  induction fs with
  | nil =>
    simp only [insert, lookup]
    rw [if_neg (Ne.symm h)]
  | cons hd tl ih =>
    obtain ⟨r, e0⟩ := hd
    by_cases hr : r = p
    · subst hr
      simp only [insert, if_pos rfl, lookup]
      rw [if_neg (Ne.symm h), if_neg (Ne.symm h)]
    · simp only [insert, if_neg hr, lookup]
      by_cases hq : r = q <;> simp [hq, ih]

@[simp] theorem insert_insert_self (fs : FS) (p : Path) (e1 e2 : Entry) :
    insert (insert fs p e1) p e2 = insert fs p e2 := by
  induction fs with
  | nil => simp [insert]
  | cons hd tl ih =>
    obtain ⟨q, e0⟩ := hd
    by_cases h : q = p
    · subst h
      simp [insert]
    · simp [insert, h, ih]

end FS

/-- The error kinds of the underlying I/O layer that are representable
in this filesystem model. -/
inductive IoErrorKind where
  | notFound
  | alreadyExists
  | notADirectory
  | isADirectory
  | cannotCreateRoot
deriving DecidableEq, Repr

/-- An underlying filesystem error: a kind together with the path at
which the operation failed. -/
structure IoError where
  kind : IoErrorKind
  path : Path
deriving DecidableEq, Repr

/-- `fs::create_dir` (`mkdir`): create a single directory at `p`.
Fails with `alreadyExists` when `p` exists, with `cannotCreateRoot`
when `p` is the filesystem root, with `notADirectory` when the parent
of `p` exists but is not a directory, and with `notFound` when the
parent of `p` does not exist.  On failure the filesystem is unchanged. -/
def create_dir (fs : FS) (p : Path) : FS × Option IoError :=
  if FS.existsPath fs p then (fs, some ⟨IoErrorKind.alreadyExists, p⟩)
  else if p = [] then (fs, some ⟨IoErrorKind.cannotCreateRoot, p⟩)
  else if FS.isDir fs p.dropLast then (FS.insert fs p Entry.dir, none)
  else if FS.existsPath fs p.dropLast then (fs, some ⟨IoErrorKind.notADirectory, p⟩)
  else (fs, some ⟨IoErrorKind.notFound, p⟩)

/-- `fs::create_dir_all`: create the directory at `p` and all missing
parents, mirroring the recursion of the Rust standard library: try
`create_dir`; on `notFound`, recursively create the parent and retry;
on any other error, succeed silently when `p` is already a directory. -/
def create_dir_all (fs : FS) (p : Path) : FS × Option IoError :=
  match create_dir fs p with
  | (fs1, none) => (fs1, none)
  | (fs1, some e) =>
    if e.kind = IoErrorKind.notFound then
      match p with
      | [] => (fs1, some e)
      | a :: rest =>
        match create_dir_all fs1 (a :: rest).dropLast with
        | (fs2, none) =>
          match create_dir fs2 (a :: rest) with
          | (fs3, none) => (fs3, none)
          | (fs3, some e2) =>
            if FS.isDir fs3 (a :: rest) then (fs3, none) else (fs3, some e2)
        | (fs2, some e2) => (fs2, some e2)
    else if FS.isDir fs1 p then (fs1, none)
    else (fs1, some e)
termination_by p.length
decreasing_by
  simp [List.length_dropLast]

/-- `fs::File::create`: create (or truncate) a file at `p`.  Fails when
`p` is a directory, or when the parent of `p` is not an existing
directory.  On failure the filesystem is unchanged. -/
def file_create (fs : FS) (p : Path) : FS × Option IoError :=
  if FS.isDir fs p then (fs, some ⟨IoErrorKind.isADirectory, p⟩)
  else if FS.isDir fs p.dropLast then (FS.insert fs p (Entry.file ""), none)
  else if FS.existsPath fs p.dropLast then (fs, some ⟨IoErrorKind.notADirectory, p⟩)
  else (fs, some ⟨IoErrorKind.notFound, p⟩)

/-- `Write::write_all` on a freshly opened handle positioned at the end
of `p`: append `s` to the contents of the file at `p`. -/
def write_all (fs : FS) (p : Path) (s : String) : FS × Option IoError :=
  match FS.lookup fs p with
  | some (Entry.file c) => (FS.insert fs p (Entry.file (c ++ s)), none)
  | _ => (fs, some ⟨IoErrorKind.isADirectory, p⟩)

/-- The error type of the core (`GitError` in `src/core/error.rs`):
either "not a git repository at this starting path" or a wrapped
underlying I/O failure. -/
inductive GitError where
  | NotAGitRepo (p : Path)
  | Io (e : IoError)
deriving DecidableEq, Repr

/-- A Git repository (`Repository` in `src/core/repository.rs`): a value
holding the base directory. -/
structure Repository where
  base_dir : Path
deriving DecidableEq, Repr

namespace Repository

/-- Construct a `Repository` from a directory that may not already be a
git repository; no filesystem access. -/
def maybe_uninitialized_repo (p : Path) : Repository :=
  ⟨p⟩

/-- Path of the local config file, `.git/config`. -/
def config (r : Repository) : Path := r.base_dir ++ [".git", "config"]

/-- Path of the description file, `.git/description`. -/
def description (r : Repository) : Path := r.base_dir ++ [".git", "description"]

/-- Path of the HEAD file, `.git/HEAD`. -/
def HEAD (r : Repository) : Path := r.base_dir ++ [".git", "HEAD"]

/-- Path of the refs directory, `.git/refs`. -/
def refs (r : Repository) : Path := r.base_dir ++ [".git", "refs"]

/-- Path of the heads directory, `.git/refs/heads`. -/
def heads (r : Repository) : Path := r.base_dir ++ [".git", "refs", "heads"]

/-- Path of the tags directory, `.git/refs/tags`. -/
def tags (r : Repository) : Path := r.base_dir ++ [".git", "refs", "tags"]

/-- Path of the objects directory, `.git/objects`. -/
def objects (r : Repository) : Path := r.base_dir ++ [".git", "objects"]

/-- Path of the objects/info directory, `.git/objects/info`. -/
def info (r : Repository) : Path := r.base_dir ++ [".git", "objects", "info"]

/-- Path of the objects/pack directory, `.git/objects/pack`. -/
def pack (r : Repository) : Path := r.base_dir ++ [".git", "objects", "pack"]

end Repository

/-- `Path::ancestors`: the path itself, then its parent, then the
grandparent, up to and including the filesystem root `[]`. -/
def ancestors (p : Path) : List Path :=
  match p with
  | [] => [[]]
  | a :: rest => (a :: rest) :: ancestors (a :: rest).dropLast
termination_by p.length
decreasing_by
  simp [List.length_dropLast]

/-- `contains_git_dir`: the candidate is an existing directory and some
entry exists at its `.git` sub-path. -/
def contains_git_dir (fs : FS) (p : Path) : Bool :=
  if !(FS.isDir fs p) then false
  else FS.existsPath fs (p ++ [".git"])

/-- `find_repo`: walk `p` and its ancestors, returning the first one
that contains a `.git` entry; otherwise fail with `NotAGitRepo p`. -/
def find_repo (fs : FS) (p : Path) : Except GitError Path :=
  match (ancestors p).find? (fun q => contains_git_dir fs q) with
  | some q => Except.ok q
  | none => Except.error (GitError.NotAGitRepo p)

/-- An observable creation step attempted by the initializer: a
recursive directory creation, or a file creation (creation plus the
following content write are one step). -/
inductive Event where
  | mkdirAll (p : Path)
  | createFile (p : Path)
deriving DecidableEq, Repr

/-- `Event.mkdirAll`? -/
def Event.isDirEvent : Event → Bool
  | Event.mkdirAll _ => true
  | Event.createFile _ => false

/-- `Event.createFile`? -/
def Event.isFileEvent : Event → Bool
  | Event.mkdirAll _ => false
  | Event.createFile _ => true

/-- Contents written into a fresh HEAD file (no trailing newline). -/
def head_content : String := "ref: refs/heads/main"

/-- Contents written into a fresh description file (trailing newline). -/
def description_content : String :=
  "Unnamed repository; edit this file \x27description\x27 to name the repository.\n"

/-- One guarded file block of the initializer, such as the HEAD block
`if !head.exists() { let mut file = fs::File::create(head)?;
file.write_all(content)?; }`: when nothing exists at `p`, create the
file there and write `content` into it, recording the attempted
creation step. -/
def create_file_if_absent (fs : FS) (p : Path) (content : String) :
    FS × List Event × Option IoError :=
  if FS.existsPath fs p then (fs, [], none)
  else
    match file_create fs p with
    | (fs1, some e) => (fs1, [Event.createFile p], some e)
    | (fs1, none) =>
      match write_all fs1 p content with
      | (fs2, oe) => (fs2, [Event.createFile p], oe)

/-- The guarded config block of the initializer,
`if !config.exists() { let _ = fs::File::create(config)?; }`: when
nothing exists at `p`, create an empty file there, recording the
attempted creation step. -/
def create_empty_file_if_absent (fs : FS) (p : Path) :
    FS × List Event × Option IoError :=
  if FS.existsPath fs p then (fs, [], none)
  else
    match file_create fs p with
    | (fs1, oe) => (fs1, [Event.createFile p], oe)

/-- The initializer, `initialize_git_repository` in
`src/commands/init_repository.rs`: working in the directory `cwd` over
filesystem `fs0`, create the four directories
`.git/refs/heads`, `.git/refs/tags`, `.git/objects/info`,
`.git/objects/pack` (recursively, in that order), then create each of
the files `.git/HEAD`, `.git/description`, `.git/config` only when it
does not already exist.  The first failing step aborts the run,
wrapping the I/O error as `GitError.Io`; the filesystem reached so far
is kept.  Besides the final filesystem and the result, the embedding
also returns the list of creation steps that were attempted, in
order. -/
def init_git_repository (cwd : Path) (fs0 : FS) :
    FS × List Event × Except GitError Unit :=
  let repo := Repository.maybe_uninitialized_repo cwd
  match create_dir_all fs0 repo.heads with
  | (fs1, some e) =>
    (fs1, [Event.mkdirAll repo.heads], Except.error (GitError.Io e))
  | (fs1, none) =>
  match create_dir_all fs1 repo.tags with
  | (fs2, some e) =>
    (fs2, [Event.mkdirAll repo.heads, Event.mkdirAll repo.tags],
      Except.error (GitError.Io e))
  | (fs2, none) =>
  match create_dir_all fs2 repo.info with
  | (fs3, some e) =>
    (fs3, [Event.mkdirAll repo.heads, Event.mkdirAll repo.tags,
      Event.mkdirAll repo.info], Except.error (GitError.Io e))
  | (fs3, none) =>
  match create_dir_all fs3 repo.pack with
  | (fs4, some e) =>
    (fs4, [Event.mkdirAll repo.heads, Event.mkdirAll repo.tags,
      Event.mkdirAll repo.info, Event.mkdirAll repo.pack],
      Except.error (GitError.Io e))
  | (fs4, none) =>
  let dirEvents := [Event.mkdirAll repo.heads, Event.mkdirAll repo.tags,
    Event.mkdirAll repo.info, Event.mkdirAll repo.pack]
  match create_file_if_absent fs4 repo.HEAD head_content with
  | (fs5, t5, some e) => (fs5, dirEvents ++ t5, Except.error (GitError.Io e))
  | (fs5, t5, none) =>
  match create_file_if_absent fs5 repo.description description_content with
  | (fs6, t6, some e) =>
    (fs6, dirEvents ++ t5 ++ t6, Except.error (GitError.Io e))
  | (fs6, t6, none) =>
  match create_empty_file_if_absent fs6 repo.config with
  | (fs7, t7, some e) =>
    (fs7, dirEvents ++ t5 ++ t6 ++ t7, Except.error (GitError.Io e))
  | (fs7, t7, none) =>
    (fs7, dirEvents ++ t5 ++ t6 ++ t7, Except.ok ())

/-- The filesystem reached by one run of the initializer. -/
def initState (cwd : Path) (fs : FS) : FS :=
  (init_git_repository cwd fs).1

/-- The creation steps attempted by one run of the initializer. -/
def initTrace (cwd : Path) (fs : FS) : List Event :=
  (init_git_repository cwd fs).2.1

/-- The result of one run of the initializer. -/
def initResult (cwd : Path) (fs : FS) : Except GitError Unit :=
  (init_git_repository cwd fs).2.2

/-! ### Basic facts about the filesystem model -/

theorem FS.existsPath_eq_false_iff {fs : FS} {p : Path} :
    FS.existsPath fs p = false ↔ FS.lookup fs p = none := by
  cases h : FS.lookup fs p <;> simp [FS.existsPath, h]

theorem FS.existsPath_of_lookup {fs : FS} {p : Path} {e : Entry}
    (h : FS.lookup fs p = some e) : FS.existsPath fs p = true := by
  simp [FS.existsPath, h]

theorem FS.isDir_iff {fs : FS} {p : Path} :
    FS.isDir fs p = true ↔ FS.lookup fs p = some Entry.dir := by
  simp [FS.isDir]

/-! ### Facts about the filesystem primitives -/

theorem create_dir_err_state {fs : FS} {p : Path} {fs1 : FS} {e : IoError}
    (h : create_dir fs p = (fs1, some e)) : fs1 = fs := by
  unfold create_dir at h
  split at h
  · exact (Prod.ext_iff.mp h).1.symm
  · split at h
    · exact (Prod.ext_iff.mp h).1.symm
    · split at h
      · simp at h
      · split at h <;> exact (Prod.ext_iff.mp h).1.symm

theorem create_dir_ok {fs : FS} {p : Path} {fs1 : FS}
    (h : create_dir fs p = (fs1, none)) :
    fs1 = FS.insert fs p Entry.dir ∧ FS.lookup fs p = none ∧
      FS.isDir fs p.dropLast = true := by
  unfold create_dir at h
  split at h
  · simp at h
  · split at h
    · simp at h
    · split at h
      · rename_i hex _ hdir
        refine ⟨(Prod.ext_iff.mp h).1.symm, ?_, hdir⟩
        exact FS.existsPath_eq_false_iff.mp (Bool.not_eq_true _ ▸ hex)
      · split at h <;> simp at h

theorem create_dir_notFound {fs : FS} {p : Path} {fs1 : FS} {e : IoError}
    (h : create_dir fs p = (fs1, some e)) (hk : e.kind = IoErrorKind.notFound) :
    FS.lookup fs p = none ∧ FS.lookup fs p.dropLast = none := by
  unfold create_dir at h
  split at h
  · rw [← Option.some.inj (Prod.ext_iff.mp h).2] at hk; simp at hk
  · split at h
    · rw [← Option.some.inj (Prod.ext_iff.mp h).2] at hk; simp at hk
    · split at h
      · simp at h
      · split at h
        · rw [← Option.some.inj (Prod.ext_iff.mp h).2] at hk; simp at hk
        · rename_i hex _ _ hex2
          exact ⟨FS.existsPath_eq_false_iff.mp (Bool.not_eq_true _ ▸ hex),
            FS.existsPath_eq_false_iff.mp (Bool.not_eq_true _ ▸ hex2)⟩

/-- Behaviour of `create_dir_all`, in one statement: on success the
target is a directory; on failure the filesystem is unchanged; and the
only entries it ever changes are previously absent ancestors of the
target, which become directories. -/
theorem create_dir_all_spec (fs : FS) (p : Path) :
    ((create_dir_all fs p).2 = none →
      FS.isDir (create_dir_all fs p).1 p = true) ∧
    (∀ e, (create_dir_all fs p).2 = some e → (create_dir_all fs p).1 = fs) ∧
    (∀ q, FS.lookup (create_dir_all fs p).1 q = FS.lookup fs q ∨
      (List.isPrefixOf q p = true ∧
        FS.lookup (create_dir_all fs p).1 q = some Entry.dir ∧
        FS.lookup fs q = none)) := by
  induction fs, p using create_dir_all.induct with
  | case1 fs p fs1 hcd =>
    obtain ⟨h1, hnone, _⟩ := create_dir_ok hcd
    subst h1
    have key : create_dir_all fs p = (FS.insert fs p Entry.dir, none) := by
      rw [create_dir_all, hcd]
    rw [key]
    refine ⟨fun _ => ?_, fun e he => by simp at he, fun q => ?_⟩
    · simp [FS.isDir]
    · by_cases hq : q = p
      · subst hq
        exact Or.inr ⟨List.isPrefixOf_iff_prefix.mpr List.prefix_rfl, by simp, hnone⟩
      · exact Or.inl (FS.lookup_insert_of_ne fs p q Entry.dir hq)
  | case2 fs fs1 e hk hcd =>
    have h1 := create_dir_err_state hcd
    have key : create_dir_all fs ([] : Path) = (fs1, some e) := by
      rw [create_dir_all, hcd]
      simp [hk]
    rw [key, h1]
    exact ⟨fun h => by simp at h, fun _ _ => rfl, fun q => Or.inl rfl⟩
  | case3 fs fsA e2 hk a rest fsB hrec fsC hcd2 hcd1 ih =>
    have h1 := create_dir_err_state hcd1
    rw [hrec] at ih
    rw [h1] at ih
    have hnf := create_dir_notFound hcd1 hk
    obtain ⟨h2, hBnone, _⟩ := create_dir_ok hcd2
    have key : create_dir_all fs (a :: rest) = (fsC, none) := by
      rw [create_dir_all, hcd1]
      simp only [hk]
      rw [hrec]
      simp [hcd2]
    rw [key, h2]
    refine ⟨fun _ => ?_, fun e he => by simp at he, fun q => ?_⟩
    · simp [FS.isDir]
    · by_cases hq : q = a :: rest
      · subst hq
        exact Or.inr ⟨List.isPrefixOf_iff_prefix.mpr List.prefix_rfl, by simp, hnf.1⟩
      · rw [FS.lookup_insert_of_ne fsB (a :: rest) q Entry.dir hq]
        rcases ih.2.2 q with hsame | ⟨hpre, hdirq, hnoneq⟩
        · exact Or.inl hsame
        · refine Or.inr ⟨?_, hdirq, hnoneq⟩
          exact List.isPrefixOf_iff_prefix.mpr
            ((List.isPrefixOf_iff_prefix.mp hpre).trans (List.dropLast_prefix _))
  | case4 fs fsA e2b hk a rest fsB hrec fsC e2 hcd2 hdirC hcd1 ih =>
    have h1 := create_dir_err_state hcd1
    rw [hrec] at ih
    rw [h1] at ih
    have h2 := create_dir_err_state hcd2
    have key : create_dir_all fs (a :: rest) = (fsC, none) := by
      rw [create_dir_all, hcd1]
      simp only [hk]
      rw [hrec]
      simp [hcd2, hdirC]
    rw [key, h2]
    refine ⟨fun _ => h2 ▸ hdirC, fun e he => by simp at he, fun q => ?_⟩
    rcases ih.2.2 q with hsame | ⟨hpre, hdirq, hnoneq⟩
    · exact Or.inl hsame
    · refine Or.inr ⟨?_, hdirq, hnoneq⟩
      exact List.isPrefixOf_iff_prefix.mpr
        ((List.isPrefixOf_iff_prefix.mp hpre).trans (List.dropLast_prefix _))
  | case5 fs fsA e2b hk a rest fsB hrec fsC e2 hcd2 hdirC hcd1 ih =>
    -- this branch cannot happen: after the parent has been created the
    -- retried create_dir always succeeds
    exfalso
    have h1 := create_dir_err_state hcd1
    rw [hrec] at ih
    rw [h1] at ih
    have hnf := create_dir_notFound hcd1 hk
    have hdirB : FS.isDir fsB (a :: rest).dropLast = true := ih.1 rfl
    have hlookB : FS.lookup fsB (a :: rest) = none := by
      rcases ih.2.2 (a :: rest) with hsame | ⟨hpre, _, _⟩
      · have hh : FS.lookup fsB (a :: rest) = FS.lookup fs (a :: rest) := hsame
        rw [hh]
        exact hnf.1
      · have hlen := (List.isPrefixOf_iff_prefix.mp hpre).length_le
        rw [List.length_dropLast] at hlen
        simp at hlen
    have hgood : create_dir fsB (a :: rest) =
        (FS.insert fsB (a :: rest) Entry.dir, none) := by
      unfold create_dir
      rw [if_neg (by simp [FS.existsPath, hlookB]), if_neg (by simp),
        if_pos hdirB]
    rw [hgood] at hcd2
    simp at hcd2
  | case6 fs fsA e2b hk a rest fsC e2 hrec hcd1 ih =>
    have h1 := create_dir_err_state hcd1
    rw [hrec] at ih
    rw [h1] at ih
    have h2 : fsC = fs := ih.2.1 e2 rfl
    have key : create_dir_all fs (a :: rest) = (fsC, some e2) := by
      rw [create_dir_all, hcd1]
      simp only [hk]
      rw [hrec]
      simp
    rw [key, h2]
    exact ⟨fun h => by simp at h, fun _ _ => rfl, fun q => Or.inl rfl⟩
  | case7 fs p fs1 e2 hcd hknf hdir =>
    have h1 := create_dir_err_state hcd
    have key : create_dir_all fs p = (fs1, none) := by
      rw [create_dir_all, hcd]
      simp [hknf, hdir]
    rw [key, h1]
    exact ⟨fun _ => h1 ▸ hdir, fun e he => by simp at he, fun q => Or.inl rfl⟩
  | case8 fs p fs1 e2 hcd hknf hdir =>
    have h1 := create_dir_err_state hcd
    have key : create_dir_all fs p = (fs1, some e2) := by
      rw [create_dir_all, hcd]
      simp [hknf, hdir]
    rw [key, h1]
    exact ⟨fun h => by simp at h, fun _ _ => rfl, fun q => Or.inl rfl⟩

theorem create_dir_all_ok_isDir {fs fs1 : FS} {p : Path}
    (h : create_dir_all fs p = (fs1, none)) : FS.isDir fs1 p = true := by
  have hs := (create_dir_all_spec fs p).1
  rw [h] at hs
  exact hs rfl

theorem create_dir_all_err_state {fs fs1 : FS} {p : Path} {e : IoError}
    (h : create_dir_all fs p = (fs1, some e)) : fs1 = fs := by
  have hs := (create_dir_all_spec fs p).2.1 e
  rw [h] at hs
  exact hs rfl

theorem create_dir_all_preserve {fs : FS} {p q : Path} {ent : Entry}
    (h : FS.lookup fs q = some ent) :
    FS.lookup (create_dir_all fs p).1 q = some ent := by
  rcases (create_dir_all_spec fs p).2.2 q with hs | ⟨_, _, hnone⟩
  · rw [hs]
    exact h
  · rw [h] at hnone
    simp at hnone

theorem create_dir_all_untouched {fs : FS} {p q : Path}
    (h : List.isPrefixOf q p = false) :
    FS.lookup (create_dir_all fs p).1 q = FS.lookup fs q := by
  rcases (create_dir_all_spec fs p).2.2 q with hs | ⟨hpre, _, _⟩
  · exact hs
  · rw [hpre] at h
    simp at h

theorem create_dir_all_noop_of_isDir {fs : FS} {p : Path}
    (h : FS.isDir fs p = true) : create_dir_all fs p = (fs, none) := by
  have hex : FS.existsPath fs p = true :=
    FS.existsPath_of_lookup (FS.isDir_iff.mp h)
  have hcd : create_dir fs p = (fs, some ⟨IoErrorKind.alreadyExists, p⟩) := by
    unfold create_dir
    rw [if_pos hex]
  rw [create_dir_all, hcd]
  simp [h]

theorem file_create_err_state {fs fs1 : FS} {p : Path} {e : IoError}
    (h : file_create fs p = (fs1, some e)) : fs1 = fs := by
  unfold file_create at h
  split at h
  · exact (Prod.ext_iff.mp h).1.symm
  · split at h
    · simp at h
    · split at h <;> exact (Prod.ext_iff.mp h).1.symm

theorem file_create_ok {fs fs1 : FS} {p : Path}
    (h : file_create fs p = (fs1, none)) :
    fs1 = FS.insert fs p (Entry.file "") := by
  unfold file_create at h
  split at h
  · simp at h
  · split at h
    · exact (Prod.ext_iff.mp h).1.symm
    · split at h <;> simp at h

theorem write_all_of_file {fs : FS} {p : Path} {c : String} (s : String)
    (h : FS.lookup fs p = some (Entry.file c)) :
    write_all fs p s = (FS.insert fs p (Entry.file (c ++ s)), none) := by
  unfold write_all
  rw [h]

/-! ### Facts about the guarded file-creation blocks -/

theorem cfia_noop_of_exists {fs : FS} {p : Path} (content : String)
    (h : FS.existsPath fs p = true) :
    create_file_if_absent fs p content = (fs, [], none) := by
  unfold create_file_if_absent
  rw [if_pos h]

theorem cfia_err_state {fs fs1 : FS} {p : Path} {content : String}
    {t : List Event} {e : IoError}
    (h : create_file_if_absent fs p content = (fs1, t, some e)) : fs1 = fs := by
  unfold create_file_if_absent at h
  split at h
  · simp at h
  · split at h
    · rename_i fsA eA hfc
      simp only [Prod.mk.injEq] at h
      rw [← h.1]
      exact file_create_err_state hfc
    · rename_i fsA hfc
      rw [file_create_ok hfc,
        write_all_of_file content (FS.lookup_insert_self fs p (Entry.file ""))] at h
      simp at h

theorem cfia_ok_state {fs fs1 : FS} {p : Path} {content : String}
    {t : List Event}
    (h : create_file_if_absent fs p content = (fs1, t, none)) :
    (fs1 = fs ∧ t = [] ∧ FS.existsPath fs p = true) ∨
      (fs1 = FS.insert fs p (Entry.file content) ∧ t = [Event.createFile p] ∧
        FS.lookup fs p = none) := by
  unfold create_file_if_absent at h
  split at h
  · rename_i hex
    left
    simp only [Prod.mk.injEq] at h
    exact ⟨h.1.symm, h.2.1.symm, hex⟩
  · rename_i hex
    right
    split at h
    · simp at h
    · rename_i fsA hfc
      rw [file_create_ok hfc,
        write_all_of_file content (FS.lookup_insert_self fs p (Entry.file "")),
        FS.insert_insert_self, String.empty_append] at h
      simp only [Prod.mk.injEq] at h
      exact ⟨h.1.symm, h.2.1.symm,
        FS.existsPath_eq_false_iff.mp (Bool.not_eq_true _ ▸ hex)⟩

theorem cfia_preserve {fs : FS} {p : Path} {content : String} {q : Path}
    {ent : Entry} (h : FS.lookup fs q = some ent) :
    FS.lookup (create_file_if_absent fs p content).1 q = some ent := by
  rcases hr : create_file_if_absent fs p content with ⟨fs1, t, r⟩
  cases r with
  | some e =>
    rw [cfia_err_state hr]
    exact h
  | none =>
    rcases cfia_ok_state hr with ⟨h1, _, _⟩ | ⟨h1, _, hnone⟩
    · rw [h1]
      exact h
    · subst h1
      have hqp : q ≠ p := fun hh => by rw [hh, hnone] at h; exact Option.noConfusion h
      rw [FS.lookup_insert_of_ne fs p q _ hqp]
      exact h

theorem cfia_other {fs : FS} {p : Path} {content : String} {q : Path}
    (hq : q ≠ p) :
    FS.lookup (create_file_if_absent fs p content).1 q = FS.lookup fs q := by
  rcases hr : create_file_if_absent fs p content with ⟨fs1, t, r⟩
  cases r with
  | some e =>
    rw [cfia_err_state hr]
  | none =>
    rcases cfia_ok_state hr with ⟨h1, _, _⟩ | ⟨h1, _, _⟩
    · rw [h1]
    · rw [h1, FS.lookup_insert_of_ne fs p q _ hq]

theorem cfia_ok_exists {fs fs1 : FS} {p : Path} {content : String}
    {t : List Event}
    (h : create_file_if_absent fs p content = (fs1, t, none)) :
    FS.existsPath fs1 p = true := by
  rcases cfia_ok_state h with ⟨h1, _, hex⟩ | ⟨h1, _, _⟩
  · rw [h1]
    exact hex
  · rw [h1]
    exact FS.existsPath_of_lookup (FS.lookup_insert_self fs p _)

theorem cfia_created {fs fs1 : FS} {p : Path} {content : String}
    {t : List Event} (hnone : FS.lookup fs p = none)
    (h : create_file_if_absent fs p content = (fs1, t, none)) :
    FS.lookup fs1 p = some (Entry.file content) := by
  rcases cfia_ok_state h with ⟨_, _, hex⟩ | ⟨h1, _, _⟩
  · rw [FS.existsPath_eq_false_iff.mpr hnone] at hex
    exact Bool.noConfusion hex
  · rw [h1]
    exact FS.lookup_insert_self fs p _

theorem cfia_trace {fs fs1 : FS} {p : Path} {content : String}
    {t : List Event} {r : Option IoError}
    (h : create_file_if_absent fs p content = (fs1, t, r)) :
    t = [] ∨ t = [Event.createFile p] := by
  unfold create_file_if_absent at h
  split at h
  · simp only [Prod.mk.injEq] at h
    exact Or.inl h.2.1.symm
  · split at h
    · simp only [Prod.mk.injEq] at h
      exact Or.inr h.2.1.symm
    · rename_i fsA hfc
      rw [file_create_ok hfc,
        write_all_of_file content (FS.lookup_insert_self fs p (Entry.file ""))] at h
      simp only [Prod.mk.injEq] at h
      exact Or.inr h.2.1.symm

theorem cefia_noop_of_exists {fs : FS} {p : Path}
    (h : FS.existsPath fs p = true) :
    create_empty_file_if_absent fs p = (fs, [], none) := by
  unfold create_empty_file_if_absent
  rw [if_pos h]

theorem cefia_err_state {fs fs1 : FS} {p : Path} {t : List Event} {e : IoError}
    (h : create_empty_file_if_absent fs p = (fs1, t, some e)) : fs1 = fs := by
  unfold create_empty_file_if_absent at h
  split at h
  · simp at h
  · split at h
    rename_i fsA oe hfc
    simp only [Prod.mk.injEq] at h
    obtain ⟨h1, -, h3⟩ := h
    subst h3
    rw [← h1]
    exact file_create_err_state hfc

theorem cefia_ok_state {fs fs1 : FS} {p : Path} {t : List Event}
    (h : create_empty_file_if_absent fs p = (fs1, t, none)) :
    (fs1 = fs ∧ t = [] ∧ FS.existsPath fs p = true) ∨
      (fs1 = FS.insert fs p (Entry.file "") ∧ t = [Event.createFile p] ∧
        FS.lookup fs p = none) := by
  unfold create_empty_file_if_absent at h
  split at h
  · rename_i hex
    left
    simp only [Prod.mk.injEq] at h
    exact ⟨h.1.symm, h.2.1.symm, hex⟩
  · rename_i hex
    right
    split at h
    rename_i fsA oe hfc
    simp only [Prod.mk.injEq] at h
    obtain ⟨h1, h2, h3⟩ := h
    subst h3
    exact ⟨h1.symm.trans (file_create_ok hfc), h2.symm,
      FS.existsPath_eq_false_iff.mp (Bool.not_eq_true _ ▸ hex)⟩

theorem cefia_preserve {fs : FS} {p : Path} {q : Path} {ent : Entry}
    (h : FS.lookup fs q = some ent) :
    FS.lookup (create_empty_file_if_absent fs p).1 q = some ent := by
  rcases hr : create_empty_file_if_absent fs p with ⟨fs1, t, r⟩
  cases r with
  | some e =>
    rw [cefia_err_state hr]
    exact h
  | none =>
    rcases cefia_ok_state hr with ⟨h1, _, _⟩ | ⟨h1, _, hnone⟩
    · rw [h1]
      exact h
    · subst h1
      have hqp : q ≠ p := fun hh => by rw [hh, hnone] at h; exact Option.noConfusion h
      rw [FS.lookup_insert_of_ne fs p q _ hqp]
      exact h

theorem cefia_other {fs : FS} {p : Path} {q : Path} (hq : q ≠ p) :
    FS.lookup (create_empty_file_if_absent fs p).1 q = FS.lookup fs q := by
  rcases hr : create_empty_file_if_absent fs p with ⟨fs1, t, r⟩
  cases r with
  | some e =>
    rw [cefia_err_state hr]
  | none =>
    rcases cefia_ok_state hr with ⟨h1, _, _⟩ | ⟨h1, _, _⟩
    · rw [h1]
    · rw [h1, FS.lookup_insert_of_ne fs p q _ hq]

theorem cefia_ok_exists {fs fs1 : FS} {p : Path} {t : List Event}
    (h : create_empty_file_if_absent fs p = (fs1, t, none)) :
    FS.existsPath fs1 p = true := by
  rcases cefia_ok_state h with ⟨h1, _, hex⟩ | ⟨h1, _, _⟩
  · rw [h1]
    exact hex
  · rw [h1]
    exact FS.existsPath_of_lookup (FS.lookup_insert_self fs p _)

theorem cefia_created {fs fs1 : FS} {p : Path} {t : List Event}
    (hnone : FS.lookup fs p = none)
    (h : create_empty_file_if_absent fs p = (fs1, t, none)) :
    FS.lookup fs1 p = some (Entry.file "") := by
  rcases cefia_ok_state h with ⟨_, _, hex⟩ | ⟨h1, _, _⟩
  · rw [FS.existsPath_eq_false_iff.mpr hnone] at hex
    exact Bool.noConfusion hex
  · rw [h1]
    exact FS.lookup_insert_self fs p _

theorem cefia_trace {fs fs1 : FS} {p : Path} {t : List Event}
    {r : Option IoError}
    (h : create_empty_file_if_absent fs p = (fs1, t, r)) :
    t = [] ∨ t = [Event.createFile p] := by
  unfold create_empty_file_if_absent at h
  split at h
  · simp only [Prod.mk.injEq] at h
    exact Or.inl h.2.1.symm
  · split at h
    simp only [Prod.mk.injEq] at h
    exact Or.inr h.2.1.symm

/-! ### Equation-shaped preservation lemmas for chaining through a run -/

theorem FS.existsPath_iff {fs : FS} {p : Path} :
    FS.existsPath fs p = true ↔ ∃ ent, FS.lookup fs p = some ent := by
  simp [FS.existsPath, Option.isSome_iff_exists]

theorem cda_step_preserve {fs fs1 : FS} {X : Path} {r : Option IoError}
    (heq : create_dir_all fs X = (fs1, r)) {q : Path} {ent : Entry}
    (h : FS.lookup fs q = some ent) : FS.lookup fs1 q = some ent := by
  have hh := create_dir_all_preserve (p := X) h
  rw [heq] at hh
  exact hh

theorem cda_step_isDir {fs fs1 : FS} {X : Path} {r : Option IoError}
    (heq : create_dir_all fs X = (fs1, r)) {q : Path}
    (h : FS.isDir fs q = true) : FS.isDir fs1 q = true :=
  FS.isDir_iff.mpr (cda_step_preserve heq (FS.isDir_iff.mp h))

theorem cda_step_exists {fs fs1 : FS} {X : Path} {r : Option IoError}
    (heq : create_dir_all fs X = (fs1, r)) {q : Path}
    (h : FS.existsPath fs q = true) : FS.existsPath fs1 q = true := by
  obtain ⟨ent, he⟩ := FS.existsPath_iff.mp h
  exact FS.existsPath_of_lookup (cda_step_preserve heq he)

theorem cfia_step_preserve {fs fs1 : FS} {p : Path} {c : String}
    {t : List Event} {r : Option IoError}
    (heq : create_file_if_absent fs p c = (fs1, t, r)) {q : Path} {ent : Entry}
    (h : FS.lookup fs q = some ent) : FS.lookup fs1 q = some ent := by
  have hh : FS.lookup (create_file_if_absent fs p c).1 q = some ent :=
    cfia_preserve h
  rw [heq] at hh
  exact hh

theorem cfia_step_isDir {fs fs1 : FS} {p : Path} {c : String}
    {t : List Event} {r : Option IoError}
    (heq : create_file_if_absent fs p c = (fs1, t, r)) {q : Path}
    (h : FS.isDir fs q = true) : FS.isDir fs1 q = true :=
  FS.isDir_iff.mpr (cfia_step_preserve heq (FS.isDir_iff.mp h))

theorem cfia_step_exists {fs fs1 : FS} {p : Path} {c : String}
    {t : List Event} {r : Option IoError}
    (heq : create_file_if_absent fs p c = (fs1, t, r)) {q : Path}
    (h : FS.existsPath fs q = true) : FS.existsPath fs1 q = true := by
  obtain ⟨ent, he⟩ := FS.existsPath_iff.mp h
  exact FS.existsPath_of_lookup (cfia_step_preserve heq he)

theorem cefia_step_preserve {fs fs1 : FS} {p : Path}
    {t : List Event} {r : Option IoError}
    (heq : create_empty_file_if_absent fs p = (fs1, t, r)) {q : Path}
    {ent : Entry}
    (h : FS.lookup fs q = some ent) : FS.lookup fs1 q = some ent := by
  have hh : FS.lookup (create_empty_file_if_absent fs p).1 q = some ent :=
    cefia_preserve h
  rw [heq] at hh
  exact hh

theorem cefia_step_isDir {fs fs1 : FS} {p : Path}
    {t : List Event} {r : Option IoError}
    (heq : create_empty_file_if_absent fs p = (fs1, t, r)) {q : Path}
    (h : FS.isDir fs q = true) : FS.isDir fs1 q = true :=
  FS.isDir_iff.mpr (cefia_step_preserve heq (FS.isDir_iff.mp h))

theorem cefia_step_exists {fs fs1 : FS} {p : Path}
    {t : List Event} {r : Option IoError}
    (heq : create_empty_file_if_absent fs p = (fs1, t, r)) {q : Path}
    (h : FS.existsPath fs q = true) : FS.existsPath fs1 q = true := by
  obtain ⟨ent, he⟩ := FS.existsPath_iff.mp h
  exact FS.existsPath_of_lookup (cefia_step_preserve heq he)

/-! ### Path-disjointness helpers -/

theorem append_ne (b : Path) {s1 s2 : List String} (h : s1 ≠ s2) :
    b ++ s1 ≠ b ++ s2 :=
  fun hh => h (List.append_cancel_left hh)

theorem append_isPrefixOf_false (b : Path) {s1 s2 : List String}
    (h : List.isPrefixOf s1 s2 = false) :
    List.isPrefixOf (b ++ s1) (b ++ s2) = false := by
  rw [← Bool.not_eq_true] at h ⊢
  intro hp
  apply h
  rw [List.isPrefixOf_iff_prefix] at hp ⊢
  exact (List.prefix_append_right_inj b).mp hp

/-! ### Run-level properties of the initializer -/

/-- Entries present before a run of the initializer are still present,
with the same contents, after the run, whether it succeeds or fails. -/
theorem init_preserves_entries (cwd : Path) (fs0 : FS) (q : Path) (ent : Entry)
    (h : FS.lookup fs0 q = some ent) :
    FS.lookup (init_git_repository cwd fs0).1 q = some ent := by
  simp only [init_git_repository]
  split
  · rename_i fs1 e h1
    exact cda_step_preserve h1 h
  · rename_i fs1 h1
    have p1 := cda_step_preserve h1 h
    split
    · rename_i fs2 e h2
      exact cda_step_preserve h2 p1
    · rename_i fs2 h2
      have p2 := cda_step_preserve h2 p1
      split
      · rename_i fs3 e h3
        exact cda_step_preserve h3 p2
      · rename_i fs3 h3
        have p3 := cda_step_preserve h3 p2
        split
        · rename_i fs4 e h4
          exact cda_step_preserve h4 p3
        · rename_i fs4 h4
          have p4 := cda_step_preserve h4 p3
          split
          · rename_i fs5 t5 e h5
            exact cfia_step_preserve h5 p4
          · rename_i fs5 t5 h5
            have p5 := cfia_step_preserve h5 p4
            split
            · rename_i fs6 t6 e h6
              exact cfia_step_preserve h6 p5
            · rename_i fs6 t6 h6
              have p6 := cfia_step_preserve h6 p5
              split
              · rename_i fs7 t7 e h7
                exact cefia_step_preserve h7 p6
              · rename_i fs7 t7 h7
                exact cefia_step_preserve h7 p6

/-- A failing run of the initializer always reports a wrapped I/O
error, never a NotAGitRepo error. -/
theorem init_err_io (cwd : Path) (fs0 : FS) (e : GitError)
    (h : (init_git_repository cwd fs0).2.2 = Except.error e) :
    ∃ io, e = GitError.Io io := by
  simp only [init_git_repository] at h
  iterate 7 (all_goals (try split at h))
  all_goals
    first
    | exact ⟨_, (Except.error.inj h).symm⟩
    | simp at h

theorem cda_step_untouched {fs fs1 : FS} {X : Path} {r : Option IoError}
    (heq : create_dir_all fs X = (fs1, r)) {q : Path}
    (hpre : List.isPrefixOf q X = false) :
    FS.lookup fs1 q = FS.lookup fs q := by
  have hh : FS.lookup (create_dir_all fs X).1 q = FS.lookup fs q :=
    create_dir_all_untouched hpre
  rw [heq] at hh
  exact hh

theorem cfia_step_other {fs fs1 : FS} {p : Path} {c : String}
    {t : List Event} {r : Option IoError}
    (heq : create_file_if_absent fs p c = (fs1, t, r)) {q : Path}
    (hq : q ≠ p) : FS.lookup fs1 q = FS.lookup fs q := by
  have hh : FS.lookup (create_file_if_absent fs p c).1 q = FS.lookup fs q :=
    cfia_other hq
  rw [heq] at hh
  exact hh

theorem cefia_step_other {fs fs1 : FS} {p : Path}
    {t : List Event} {r : Option IoError}
    (heq : create_empty_file_if_absent fs p = (fs1, t, r)) {q : Path}
    (hq : q ≠ p) : FS.lookup fs1 q = FS.lookup fs q := by
  have hh : FS.lookup (create_empty_file_if_absent fs p).1 q = FS.lookup fs q :=
    cefia_other hq
  rw [heq] at hh
  exact hh

/-- After a successful run of the initializer the four directories are
directories, the three files exist, and each file that was absent
before the run now holds exactly its default contents. -/
theorem init_ok_facts (cwd : Path) (fs0 fsR : FS) (tR : List Event)
    (hrun : init_git_repository cwd fs0 = (fsR, tR, Except.ok ())) :
    FS.isDir fsR (Repository.maybe_uninitialized_repo cwd).heads = true ∧
    FS.isDir fsR (Repository.maybe_uninitialized_repo cwd).tags = true ∧
    FS.isDir fsR (Repository.maybe_uninitialized_repo cwd).info = true ∧
    FS.isDir fsR (Repository.maybe_uninitialized_repo cwd).pack = true ∧
    FS.existsPath fsR (Repository.maybe_uninitialized_repo cwd).HEAD = true ∧
    FS.existsPath fsR (Repository.maybe_uninitialized_repo cwd).description = true ∧
    FS.existsPath fsR (Repository.maybe_uninitialized_repo cwd).config = true ∧
    (FS.lookup fs0 (Repository.maybe_uninitialized_repo cwd).HEAD = none →
      FS.lookup fsR (Repository.maybe_uninitialized_repo cwd).HEAD =
        some (Entry.file head_content)) ∧
    (FS.lookup fs0 (Repository.maybe_uninitialized_repo cwd).description = none →
      FS.lookup fsR (Repository.maybe_uninitialized_repo cwd).description =
        some (Entry.file description_content)) ∧
    (FS.lookup fs0 (Repository.maybe_uninitialized_repo cwd).config = none →
      FS.lookup fsR (Repository.maybe_uninitialized_repo cwd).config =
        some (Entry.file "")) := by
  simp only [init_git_repository] at hrun
  split at hrun
  · rename_i fs1 e h1
    simp at hrun
  · rename_i fs1 h1
    split at hrun
    · rename_i fs2 e h2
      simp at hrun
    · rename_i fs2 h2
      split at hrun
      · rename_i fs3 e h3
        simp at hrun
      · rename_i fs3 h3
        split at hrun
        · rename_i fs4 e h4
          simp at hrun
        · rename_i fs4 h4
          split at hrun
          · rename_i fs5 t5 e h5
            simp at hrun
          · rename_i fs5 t5 h5
            split at hrun
            · rename_i fs6 t6 e h6
              simp at hrun
            · rename_i fs6 t6 h6
              split at hrun
              · rename_i fs7 t7 e h7
                simp at hrun
              · rename_i fs7 t7 h7
                simp only [Prod.mk.injEq] at hrun
                obtain ⟨hfs, -, -⟩ := hrun
                subst hfs
                refine ⟨?_, ?_, ?_, ?_, ?_, ?_, ?_, ?_, ?_, ?_⟩
                · exact cefia_step_isDir h7 (cfia_step_isDir h6
                    (cfia_step_isDir h5 (cda_step_isDir h4 (cda_step_isDir h3
                      (cda_step_isDir h2 (create_dir_all_ok_isDir h1))))))
                · exact cefia_step_isDir h7 (cfia_step_isDir h6
                    (cfia_step_isDir h5 (cda_step_isDir h4 (cda_step_isDir h3
                      (create_dir_all_ok_isDir h2)))))
                · exact cefia_step_isDir h7 (cfia_step_isDir h6
                    (cfia_step_isDir h5 (cda_step_isDir h4
                      (create_dir_all_ok_isDir h3))))
                · exact cefia_step_isDir h7 (cfia_step_isDir h6
                    (cfia_step_isDir h5 (create_dir_all_ok_isDir h4)))
                · exact cefia_step_exists h7 (cfia_step_exists h6
                    (cfia_ok_exists h5))
                · exact cefia_step_exists h7 (cfia_ok_exists h6)
                · exact cefia_ok_exists h7
                · intro hH0
                  have u1 := (cda_step_untouched h1
                    (append_isPrefixOf_false cwd (by decide))).trans hH0
                  have u2 := (cda_step_untouched h2
                    (append_isPrefixOf_false cwd (by decide))).trans u1
                  have u3 := (cda_step_untouched h3
                    (append_isPrefixOf_false cwd (by decide))).trans u2
                  have u4 := (cda_step_untouched h4
                    (append_isPrefixOf_false cwd (by decide))).trans u3
                  exact cefia_step_preserve h7 (cfia_step_preserve h6
                    (cfia_created u4 h5))
                · intro hD0
                  have u1 := (cda_step_untouched h1
                    (append_isPrefixOf_false cwd (by decide))).trans hD0
                  have u2 := (cda_step_untouched h2
                    (append_isPrefixOf_false cwd (by decide))).trans u1
                  have u3 := (cda_step_untouched h3
                    (append_isPrefixOf_false cwd (by decide))).trans u2
                  have u4 := (cda_step_untouched h4
                    (append_isPrefixOf_false cwd (by decide))).trans u3
                  have u5 := (cfia_step_other h5 (append_ne cwd (by decide))).trans u4
                  exact cefia_step_preserve h7 (cfia_created u5 h6)
                · intro hC0
                  have u1 := (cda_step_untouched h1
                    (append_isPrefixOf_false cwd (by decide))).trans hC0
                  have u2 := (cda_step_untouched h2
                    (append_isPrefixOf_false cwd (by decide))).trans u1
                  have u3 := (cda_step_untouched h3
                    (append_isPrefixOf_false cwd (by decide))).trans u2
                  have u4 := (cda_step_untouched h4
                    (append_isPrefixOf_false cwd (by decide))).trans u3
                  have u5 := (cfia_step_other h5 (append_ne cwd (by decide))).trans u4
                  have u6 := (cfia_step_other h6 (append_ne cwd (by decide))).trans u5
                  exact cefia_created u6 h7

/-- Running the initializer on a filesystem that already has the four
directories and the three files is a complete no-op: the filesystem is
returned unchanged and the run succeeds. -/
theorem init_noop (cwd : Path) (fs : FS)
    (hd1 : FS.isDir fs (Repository.maybe_uninitialized_repo cwd).heads = true)
    (hd2 : FS.isDir fs (Repository.maybe_uninitialized_repo cwd).tags = true)
    (hd3 : FS.isDir fs (Repository.maybe_uninitialized_repo cwd).info = true)
    (hd4 : FS.isDir fs (Repository.maybe_uninitialized_repo cwd).pack = true)
    (hf1 : FS.existsPath fs (Repository.maybe_uninitialized_repo cwd).HEAD = true)
    (hf2 : FS.existsPath fs
      (Repository.maybe_uninitialized_repo cwd).description = true)
    (hf3 : FS.existsPath fs
      (Repository.maybe_uninitialized_repo cwd).config = true) :
    init_git_repository cwd fs =
      (fs, [Event.mkdirAll (Repository.maybe_uninitialized_repo cwd).heads,
        Event.mkdirAll (Repository.maybe_uninitialized_repo cwd).tags,
        Event.mkdirAll (Repository.maybe_uninitialized_repo cwd).info,
        Event.mkdirAll (Repository.maybe_uninitialized_repo cwd).pack],
        Except.ok ()) := by
  simp only [init_git_repository]
  simp [create_dir_all_noop_of_isDir hd1, create_dir_all_noop_of_isDir hd2,
    create_dir_all_noop_of_isDir hd3, create_dir_all_noop_of_isDir hd4,
    cfia_noop_of_exists head_content hf1,
    cfia_noop_of_exists description_content hf2,
    cefia_noop_of_exists hf3]

/-- Re-running the initializer on the filesystem state left by a
previous run (successful or failed) leaves the state unchanged. -/
theorem init_state_idem (cwd : Path) (fs0 : FS) :
    initState cwd (initState cwd fs0) = initState cwd fs0 := by
  rcases hrun : init_git_repository cwd fs0 with ⟨fsR, tR, rR⟩
  have hstate : initState cwd fs0 = fsR := by rw [initState, hrun]
  rw [hstate]
  simp only [init_git_repository] at hrun
  split at hrun
  · rename_i fs1 e h1
    simp only [Prod.mk.injEq] at hrun
    obtain ⟨h1R, -, -⟩ := hrun
    have hs := create_dir_all_err_state h1
    rw [← h1R, hs]
    simp only [initState, init_git_repository]
    simp [h1, hs]
  · rename_i fs1 h1
    split at hrun
    · rename_i fs2 e h2
      simp only [Prod.mk.injEq] at hrun
      obtain ⟨h2R, -, -⟩ := hrun
      have hs := create_dir_all_err_state h2
      rw [← h2R, hs]
      have n1 := create_dir_all_noop_of_isDir (create_dir_all_ok_isDir h1)
      simp only [initState, init_git_repository]
      simp [n1, h2, hs]
    · rename_i fs2 h2
      split at hrun
      · rename_i fs3 e h3
        simp only [Prod.mk.injEq] at hrun
        obtain ⟨h3R, -, -⟩ := hrun
        have hs := create_dir_all_err_state h3
        rw [← h3R, hs]
        have n1 := create_dir_all_noop_of_isDir
          (cda_step_isDir h2 (create_dir_all_ok_isDir h1))
        have n2 := create_dir_all_noop_of_isDir (create_dir_all_ok_isDir h2)
        simp only [initState, init_git_repository]
        simp [n1, n2, h3, hs]
      · rename_i fs3 h3
        split at hrun
        · rename_i fs4 e h4
          simp only [Prod.mk.injEq] at hrun
          obtain ⟨h4R, -, -⟩ := hrun
          have hs := create_dir_all_err_state h4
          rw [← h4R, hs]
          have n1 := create_dir_all_noop_of_isDir
            (cda_step_isDir h3 (cda_step_isDir h2 (create_dir_all_ok_isDir h1)))
          have n2 := create_dir_all_noop_of_isDir
            (cda_step_isDir h3 (create_dir_all_ok_isDir h2))
          have n3 := create_dir_all_noop_of_isDir (create_dir_all_ok_isDir h3)
          simp only [initState, init_git_repository]
          simp [n1, n2, n3, h4, hs]
        · rename_i fs4 h4
          split at hrun
          · rename_i fs5 t5 e h5
            simp only [Prod.mk.injEq] at hrun
            obtain ⟨h5R, -, -⟩ := hrun
            have hs := cfia_err_state h5
            rw [← h5R, hs]
            have n1 := create_dir_all_noop_of_isDir
              (cda_step_isDir h4 (cda_step_isDir h3 (cda_step_isDir h2
                (create_dir_all_ok_isDir h1))))
            have n2 := create_dir_all_noop_of_isDir
              (cda_step_isDir h4 (cda_step_isDir h3 (create_dir_all_ok_isDir h2)))
            have n3 := create_dir_all_noop_of_isDir
              (cda_step_isDir h4 (create_dir_all_ok_isDir h3))
            have n4 := create_dir_all_noop_of_isDir (create_dir_all_ok_isDir h4)
            simp only [initState, init_git_repository]
            simp [n1, n2, n3, n4, h5, hs]
          · rename_i fs5 t5 h5
            split at hrun
            · rename_i fs6 t6 e h6
              simp only [Prod.mk.injEq] at hrun
              obtain ⟨h6R, -, -⟩ := hrun
              have hs := cfia_err_state h6
              rw [← h6R, hs]
              have n1 := create_dir_all_noop_of_isDir
                (cfia_step_isDir h5 (cda_step_isDir h4 (cda_step_isDir h3
                  (cda_step_isDir h2 (create_dir_all_ok_isDir h1)))))
              have n2 := create_dir_all_noop_of_isDir
                (cfia_step_isDir h5 (cda_step_isDir h4 (cda_step_isDir h3
                  (create_dir_all_ok_isDir h2))))
              have n3 := create_dir_all_noop_of_isDir
                (cfia_step_isDir h5 (cda_step_isDir h4
                  (create_dir_all_ok_isDir h3)))
              have n4 := create_dir_all_noop_of_isDir
                (cfia_step_isDir h5 (create_dir_all_ok_isDir h4))
              have n5 := cfia_noop_of_exists head_content (cfia_ok_exists h5)
              simp only [initState, init_git_repository]
              simp [n1, n2, n3, n4, n5, h6, hs]
            · rename_i fs6 t6 h6
              split at hrun
              · rename_i fs7 t7 e h7
                simp only [Prod.mk.injEq] at hrun
                obtain ⟨h7R, -, -⟩ := hrun
                have hs := cefia_err_state h7
                rw [← h7R, hs]
                have n1 := create_dir_all_noop_of_isDir
                  (cfia_step_isDir h6 (cfia_step_isDir h5 (cda_step_isDir h4
                    (cda_step_isDir h3 (cda_step_isDir h2
                      (create_dir_all_ok_isDir h1))))))
                have n2 := create_dir_all_noop_of_isDir
                  (cfia_step_isDir h6 (cfia_step_isDir h5 (cda_step_isDir h4
                    (cda_step_isDir h3 (create_dir_all_ok_isDir h2)))))
                have n3 := create_dir_all_noop_of_isDir
                  (cfia_step_isDir h6 (cfia_step_isDir h5 (cda_step_isDir h4
                    (create_dir_all_ok_isDir h3))))
                have n4 := create_dir_all_noop_of_isDir
                  (cfia_step_isDir h6 (cfia_step_isDir h5
                    (create_dir_all_ok_isDir h4)))
                have n5 := cfia_noop_of_exists head_content
                  (cfia_step_exists h6 (cfia_ok_exists h5))
                have n6 := cfia_noop_of_exists description_content
                  (cfia_ok_exists h6)
                simp only [initState, init_git_repository]
                simp [n1, n2, n3, n4, n5, n6, h7, hs]
              · rename_i fs7 t7 h7
                simp only [Prod.mk.injEq] at hrun
                obtain ⟨h7R, -, -⟩ := hrun
                rw [← h7R]
                have hd1 := cefia_step_isDir h7 (cfia_step_isDir h6
                  (cfia_step_isDir h5 (cda_step_isDir h4 (cda_step_isDir h3
                    (cda_step_isDir h2 (create_dir_all_ok_isDir h1))))))
                have hd2 := cefia_step_isDir h7 (cfia_step_isDir h6
                  (cfia_step_isDir h5 (cda_step_isDir h4 (cda_step_isDir h3
                    (create_dir_all_ok_isDir h2)))))
                have hd3 := cefia_step_isDir h7 (cfia_step_isDir h6
                  (cfia_step_isDir h5 (cda_step_isDir h4
                    (create_dir_all_ok_isDir h3))))
                have hd4 := cefia_step_isDir h7 (cfia_step_isDir h6
                  (cfia_step_isDir h5 (create_dir_all_ok_isDir h4)))
                have hf1 := cefia_step_exists h7 (cfia_step_exists h6
                  (cfia_ok_exists h5))
                have hf2 := cefia_step_exists h7 (cfia_ok_exists h6)
                have hf3 := cefia_ok_exists h7
                simp only [initState]
                rw [init_noop cwd fs7 hd1 hd2 hd3 hd4 hf1 hf2 hf3]

/-- Traces of the guarded file blocks consist of file events only. -/
theorem all_file_of_trace {t : List Event} {p : Path}
    (h : t = [] ∨ t = [Event.createFile p]) :
    ∀ e ∈ t, e.isFileEvent = true := by
  rcases h with rfl | rfl <;> simp [Event.isFileEvent]

/-- The trace of any run of the initializer splits into a block of
directory-creation steps followed by a block of file-creation steps;
when any file creation was attempted, the directory block consists of
exactly the four directory creations, in order. -/
theorem init_trace_split (cwd : Path) (fs0 : FS) :
    ∃ dt ft, (init_git_repository cwd fs0).2.1 = dt ++ ft ∧
      (∀ e ∈ dt, e.isDirEvent = true) ∧
      (∀ e ∈ ft, e.isFileEvent = true) ∧
      (ft ≠ [] → dt =
        [Event.mkdirAll (Repository.maybe_uninitialized_repo cwd).heads,
         Event.mkdirAll (Repository.maybe_uninitialized_repo cwd).tags,
         Event.mkdirAll (Repository.maybe_uninitialized_repo cwd).info,
         Event.mkdirAll (Repository.maybe_uninitialized_repo cwd).pack]) := by
  simp only [init_git_repository]
  split
  · rename_i fs1 e h1
    exact ⟨[Event.mkdirAll (Repository.maybe_uninitialized_repo cwd).heads], [],
      by simp, by simp [Event.isDirEvent], by simp, by simp⟩
  · rename_i fs1 h1
    split
    · rename_i fs2 e h2
      exact ⟨[Event.mkdirAll (Repository.maybe_uninitialized_repo cwd).heads,
        Event.mkdirAll (Repository.maybe_uninitialized_repo cwd).tags], [],
        by simp, by simp [Event.isDirEvent], by simp, by simp⟩
    · rename_i fs2 h2
      split
      · rename_i fs3 e h3
        exact ⟨[Event.mkdirAll (Repository.maybe_uninitialized_repo cwd).heads,
          Event.mkdirAll (Repository.maybe_uninitialized_repo cwd).tags,
          Event.mkdirAll (Repository.maybe_uninitialized_repo cwd).info], [],
          by simp, by simp [Event.isDirEvent], by simp, by simp⟩
      · rename_i fs3 h3
        split
        · rename_i fs4 e h4
          exact ⟨[Event.mkdirAll (Repository.maybe_uninitialized_repo cwd).heads,
            Event.mkdirAll (Repository.maybe_uninitialized_repo cwd).tags,
            Event.mkdirAll (Repository.maybe_uninitialized_repo cwd).info,
            Event.mkdirAll (Repository.maybe_uninitialized_repo cwd).pack], [],
            by simp, by simp [Event.isDirEvent], by simp, by simp⟩
        · rename_i fs4 h4
          split
          · rename_i fs5 t5 e h5
            exact ⟨_, t5, rfl, by simp [Event.isDirEvent],
              all_file_of_trace (cfia_trace h5), fun _ => rfl⟩
          · rename_i fs5 t5 h5
            split
            · rename_i fs6 t6 e h6
              exact ⟨_, t5 ++ t6, by simp, by simp [Event.isDirEvent],
                List.forall_mem_append.mpr
                  ⟨all_file_of_trace (cfia_trace h5),
                   all_file_of_trace (cfia_trace h6)⟩,
                fun _ => rfl⟩
            · rename_i fs6 t6 h6
              split
              · rename_i fs7 t7 e h7
                exact ⟨_, t5 ++ t6 ++ t7, by simp, by simp [Event.isDirEvent],
                  List.forall_mem_append.mpr
                    ⟨List.forall_mem_append.mpr
                      ⟨all_file_of_trace (cfia_trace h5),
                       all_file_of_trace (cfia_trace h6)⟩,
                     all_file_of_trace (cefia_trace h7)⟩,
                  fun _ => rfl⟩
              · rename_i fs7 t7 h7
                exact ⟨_, t5 ++ t6 ++ t7, by simp, by simp [Event.isDirEvent],
                  List.forall_mem_append.mpr
                    ⟨List.forall_mem_append.mpr
                      ⟨all_file_of_trace (cfia_trace h5),
                       all_file_of_trace (cfia_trace h6)⟩,
                     all_file_of_trace (cefia_trace h7)⟩,
                  fun _ => rfl⟩

/-! ### Facts about the repository locator -/

/-- `contains_git_dir` holds exactly when the candidate is a directory
and some entry (of any kind) exists at its `.git` sub-path. -/
theorem contains_git_dir_iff {fs : FS} {p : Path} :
    contains_git_dir fs p = true ↔
      FS.isDir fs p = true ∧ FS.existsPath fs (p ++ [".git"]) = true := by
  unfold contains_git_dir
  by_cases h : FS.isDir fs p <;> simp [h]

/-- The ancestor walk starts with the path itself. -/
theorem ancestors_self_head (p : Path) : ∃ rest, ancestors p = p :: rest := by
  cases p with
  | nil => exact ⟨[], by rw [ancestors]⟩
  | cons a r => exact ⟨ancestors (a :: r).dropLast, by rw [ancestors]⟩

theorem find_repo_ok_split {fs : FS} {p q : Path}
    (h : find_repo fs p = Except.ok q) :
    contains_git_dir fs q = true ∧
      ∃ l1 l2, ancestors p = l1 ++ q :: l2 ∧
        ∀ x ∈ l1, contains_git_dir fs x = false := by
  unfold find_repo at h
  split at h
  · rename_i q0 hf
    have hq0 : q0 = q := Except.ok.inj h
    subst hq0
    rw [List.find?_eq_some] at hf
    obtain ⟨hq, as, bs, hsplit, hall⟩ := hf
    refine ⟨hq, as, bs, hsplit, fun x hx => ?_⟩
    have hb := hall x hx
    simpa using hb
  · simp at h

theorem find_repo_self {fs : FS} {p : Path}
    (h : contains_git_dir fs p = true) : find_repo fs p = Except.ok p := by
  obtain ⟨rest, hr⟩ := ancestors_self_head p
  unfold find_repo
  rw [hr, List.find?_cons_of_pos rest (by simpa using h)]

theorem find_repo_none {fs : FS} {p : Path}
    (h : ∀ q ∈ ancestors p, contains_git_dir fs q = false) :
    find_repo fs p = Except.error (GitError.NotAGitRepo p) := by
  unfold find_repo
  rw [List.find?_eq_none.mpr (fun x hx => by simp [h x hx])]

theorem find_repo_err {fs : FS} {p : Path} {e : GitError}
    (h : find_repo fs p = Except.error e) : e = GitError.NotAGitRepo p := by
  unfold find_repo at h
  split at h
  · simp at h
  · exact (Except.error.inj h).symm

/-! ### Claim theorems -/

/-- C1: initialization is idempotent: for every working directory and
starting filesystem, running the initializer N times (N ≥ 1) leaves
the filesystem in the same state as running it exactly once. -/
theorem init_idempotent (cwd : Path) (fs0 : FS) (N : Nat) (hN : 1 ≤ N) :
    (initState cwd)^[N] fs0 = initState cwd fs0 := by
  induction N, hN using Nat.le_induction with
  | base => simp
  | succ n hn ih =>
    rw [Function.iterate_succ_apply', ih]
    exact init_state_idem cwd fs0

theorem init_idempotent_witness :
    1 ≤ 2 ∧ (initState ["t"])^[2] [([], Entry.dir)] =
      initState ["t"] [([], Entry.dir)] :=
  ⟨by decide, init_idempotent ["t"] [([], Entry.dir)] 2 (by decide)⟩

/-- C2: a pre-existing HEAD, description or config file with arbitrary
content keeps exactly that content across a run of the initializer. -/
theorem init_never_overwrites_existing_files (cwd : Path) (fs0 : FS)
    (c : String) :
    (FS.lookup fs0 (Repository.maybe_uninitialized_repo cwd).HEAD =
        some (Entry.file c) →
      FS.lookup (initState cwd fs0)
        (Repository.maybe_uninitialized_repo cwd).HEAD = some (Entry.file c)) ∧
    (FS.lookup fs0 (Repository.maybe_uninitialized_repo cwd).description =
        some (Entry.file c) →
      FS.lookup (initState cwd fs0)
        (Repository.maybe_uninitialized_repo cwd).description =
        some (Entry.file c)) ∧
    (FS.lookup fs0 (Repository.maybe_uninitialized_repo cwd).config =
        some (Entry.file c) →
      FS.lookup (initState cwd fs0)
        (Repository.maybe_uninitialized_repo cwd).config =
        some (Entry.file c)) := by
  refine ⟨fun h => ?_, fun h => ?_, fun h => ?_⟩ <;>
    exact init_preserves_entries cwd fs0 _ _ h

theorem init_never_overwrites_existing_files_witness :
    FS.lookup (initState ["t"] [([], Entry.dir),
        (["t", ".git", "HEAD"], Entry.file "ref: refs/heads/develop")])
      (Repository.maybe_uninitialized_repo ["t"]).HEAD =
      some (Entry.file "ref: refs/heads/develop") :=
  (init_never_overwrites_existing_files ["t"]
    [([], Entry.dir), (["t", ".git", "HEAD"],
      Entry.file "ref: refs/heads/develop")] "ref: refs/heads/develop").1
    (by decide)

/-- C3: the locator enumerates the starting directory first and then
its ancestors, and returns the first candidate that is an existing
directory with an existing `.git` entry; in particular a starting
directory that itself contains `.git` is returned directly. -/
theorem find_repo_first_matching_ancestor (fs : FS) (p : Path) :
    (∃ rest, ancestors p = p :: rest) ∧
    (∀ q, find_repo fs p = Except.ok q →
      FS.isDir fs q = true ∧ FS.existsPath fs (q ++ [".git"]) = true ∧
      ∃ l1 l2, ancestors p = l1 ++ q :: l2 ∧
        ∀ x ∈ l1, contains_git_dir fs x = false) ∧
    (contains_git_dir fs p = true → find_repo fs p = Except.ok p) := by
  refine ⟨ancestors_self_head p, fun q hq => ?_, find_repo_self⟩
  obtain ⟨hc, l1, l2, hsplit, hall⟩ := find_repo_ok_split hq
  obtain ⟨hdir, hex⟩ := contains_git_dir_iff.mp hc
  exact ⟨hdir, hex, l1, l2, hsplit, hall⟩

theorem find_repo_first_matching_ancestor_witness :
    find_repo [([], Entry.dir), (["a"], Entry.dir), (["a", ".git"], Entry.dir),
        (["a", "b"], Entry.dir), (["a", "b", "c"], Entry.dir)]
      ["a", "b", "c"] = Except.ok ["a"] ∧
    (FS.isDir [([], Entry.dir), (["a"], Entry.dir), (["a", ".git"], Entry.dir),
        (["a", "b"], Entry.dir), (["a", "b", "c"], Entry.dir)] ["a"] = true ∧
      FS.existsPath [([], Entry.dir), (["a"], Entry.dir),
        (["a", ".git"], Entry.dir), (["a", "b"], Entry.dir),
        (["a", "b", "c"], Entry.dir)] (["a"] ++ [".git"]) = true ∧
      ∃ l1 l2, ancestors ["a", "b", "c"] = l1 ++ ["a"] :: l2 ∧
        ∀ x ∈ l1, contains_git_dir [([], Entry.dir), (["a"], Entry.dir),
          (["a", ".git"], Entry.dir), (["a", "b"], Entry.dir),
          (["a", "b", "c"], Entry.dir)] x = false) :=
  ⟨by simp [find_repo, ancestors, contains_git_dir, FS.isDir, FS.existsPath,
      FS.lookup],
   (find_repo_first_matching_ancestor [([], Entry.dir), (["a"], Entry.dir),
      (["a", ".git"], Entry.dir), (["a", "b"], Entry.dir),
      (["a", "b", "c"], Entry.dir)] ["a", "b", "c"]).2.1 ["a"]
     (by simp [find_repo, ancestors, contains_git_dir, FS.isDir, FS.existsPath,
      FS.lookup])⟩

/-- C4: when no candidate on the ancestor chain contains a `.git`
entry, the locator fails with NotAGitRepo carrying the original
starting path; moreover every locator failure carries exactly the
original starting path. -/
theorem find_repo_failure_carries_start_path (fs : FS) (p : Path) :
    ((∀ q ∈ ancestors p, contains_git_dir fs q = false) →
      find_repo fs p = Except.error (GitError.NotAGitRepo p)) ∧
    (∀ e, find_repo fs p = Except.error e → e = GitError.NotAGitRepo p) :=
  ⟨find_repo_none, fun _ => find_repo_err⟩

theorem find_repo_failure_carries_start_path_witness :
    find_repo [([], Entry.dir), (["u"], Entry.dir)] ["u"] =
      Except.error (GitError.NotAGitRepo ["u"]) :=
  (find_repo_failure_carries_start_path [([], Entry.dir), (["u"], Entry.dir)]
    ["u"]).1 (by
      simp [ancestors, contains_git_dir, FS.isDir, FS.existsPath, FS.lookup])

/-- C5: after a successful run of the initializer on a filesystem where
the three files were absent, HEAD holds exactly
`ref: refs/heads/main` (no trailing newline), the description file
holds the fixed placeholder message ending in a newline, and the
config file is empty. -/
theorem init_default_file_contents (cwd : Path) (fs0 : FS)
    (hH : FS.lookup fs0 (Repository.maybe_uninitialized_repo cwd).HEAD = none)
    (hD : FS.lookup fs0
      (Repository.maybe_uninitialized_repo cwd).description = none)
    (hC : FS.lookup fs0 (Repository.maybe_uninitialized_repo cwd).config = none)
    (hok : initResult cwd fs0 = Except.ok ()) :
    FS.lookup (initState cwd fs0)
        (Repository.maybe_uninitialized_repo cwd).HEAD =
      some (Entry.file "ref: refs/heads/main") ∧
    FS.lookup (initState cwd fs0)
        (Repository.maybe_uninitialized_repo cwd).description =
      some (Entry.file
        "Unnamed repository; edit this file \x27description\x27 to name the repository.\n") ∧
    FS.lookup (initState cwd fs0)
        (Repository.maybe_uninitialized_repo cwd).config =
      some (Entry.file "") := by
  rcases hrun : init_git_repository cwd fs0 with ⟨fsR, tR, rR⟩
  have hr : rR = Except.ok () := by
    have hh := hok
    simp only [initResult] at hh
    rw [hrun] at hh
    exact hh
  subst hr
  have hfacts := init_ok_facts cwd fs0 fsR tR hrun
  have hstate : initState cwd fs0 = fsR := by
    simp only [initState]
    rw [hrun]
  rw [hstate]
  exact ⟨hfacts.2.2.2.2.2.2.2.1 hH, hfacts.2.2.2.2.2.2.2.2.1 hD,
    hfacts.2.2.2.2.2.2.2.2.2 hC⟩

theorem init_default_file_contents_witness :
    initResult ["t"] [([], Entry.dir)] = Except.ok () ∧
    (FS.lookup (initState ["t"] [([], Entry.dir)])
        (Repository.maybe_uninitialized_repo ["t"]).HEAD =
      some (Entry.file "ref: refs/heads/main") ∧
    FS.lookup (initState ["t"] [([], Entry.dir)])
        (Repository.maybe_uninitialized_repo ["t"]).description =
      some (Entry.file
        "Unnamed repository; edit this file \x27description\x27 to name the repository.\n") ∧
    FS.lookup (initState ["t"] [([], Entry.dir)])
        (Repository.maybe_uninitialized_repo ["t"]).config =
      some (Entry.file "")) :=
  ⟨by simp [initResult, init_git_repository, create_dir_all, create_dir,
      create_file_if_absent, create_empty_file_if_absent, file_create,
      write_all, FS.existsPath, FS.isDir, FS.lookup, FS.insert,
      Repository.heads, Repository.tags, Repository.info, Repository.pack,
      Repository.HEAD, Repository.description, Repository.config,
      Repository.maybe_uninitialized_repo], init_default_file_contents ["t"] [([], Entry.dir)]
    (by decide) (by decide) (by decide)
    (by simp [initResult, init_git_repository, create_dir_all, create_dir,
      create_file_if_absent, create_empty_file_if_absent, file_create,
      write_all, FS.existsPath, FS.isDir, FS.lookup, FS.insert,
      Repository.heads, Repository.tags, Repository.info, Repository.pack,
      Repository.HEAD, Repository.description, Repository.config,
      Repository.maybe_uninitialized_repo])⟩

/-- C6 counterexample: a candidate directory whose `.git` entry is a
plain file, not a directory, does satisfy the search: `contains_git_dir`
only checks existence of the `.git` entry, and the locator returns the
candidate. -/
theorem contains_git_dir_plain_file_counterexample :
    FS.lookup [(["a"], Entry.dir), (["a", ".git"], Entry.file "gitfile")]
      ["a", ".git"] = some (Entry.file "gitfile") ∧
    FS.isDir [(["a"], Entry.dir), (["a", ".git"], Entry.file "gitfile")]
      ["a", ".git"] = false ∧
    contains_git_dir [(["a"], Entry.dir), (["a", ".git"], Entry.file "gitfile")]
      ["a"] = true ∧
    find_repo [(["a"], Entry.dir), (["a", ".git"], Entry.file "gitfile")]
      ["a"] = Except.ok ["a"] :=
  ⟨by decide, by decide, by decide, by
    simp [find_repo, ancestors, contains_git_dir, FS.isDir, FS.existsPath,
      FS.lookup]⟩

/-- C6 (amended): every directory returned by the locate operation is
itself an existing directory at which a `.git` entry exists; the
`.git` entry need not be a directory, since only its existence is
checked. -/
theorem find_repo_result_isDir_and_git_exists (fs : FS) (p q : Path)
    (h : find_repo fs p = Except.ok q) :
    FS.isDir fs q = true ∧ FS.existsPath fs (q ++ [".git"]) = true :=
  contains_git_dir_iff.mp (find_repo_ok_split h).1

theorem find_repo_result_isDir_and_git_exists_witness :
    FS.isDir [(["a"], Entry.dir), (["a", ".git"], Entry.file "gitfile")]
      ["a"] = true ∧
    FS.existsPath [(["a"], Entry.dir), (["a", ".git"], Entry.file "gitfile")]
      (["a"] ++ [".git"]) = true :=
  find_repo_result_isDir_and_git_exists
    [(["a"], Entry.dir), (["a", ".git"], Entry.file "gitfile")] ["a"] ["a"]
    (by simp [find_repo, ancestors, contains_git_dir, FS.isDir, FS.existsPath,
      FS.lookup])

/-- C7: each layout accessor is a pure, total function of the base
directory, returning exactly the base directory extended with the
fixed relative suffix of the derived-path table, and the constructor
stores the base directory unchanged.  (The code has no dedicated
accessor for the metadata root itself; the locator forms that path as
the candidate extended with `.git`.) -/
theorem repository_layout_accessors (r : Repository) (b : Path) :
    r.config = r.base_dir ++ [".git", "config"] ∧
    r.description = r.base_dir ++ [".git", "description"] ∧
    r.HEAD = r.base_dir ++ [".git", "HEAD"] ∧
    r.refs = r.base_dir ++ [".git", "refs"] ∧
    r.heads = r.base_dir ++ [".git", "refs", "heads"] ∧
    r.tags = r.base_dir ++ [".git", "refs", "tags"] ∧
    r.objects = r.base_dir ++ [".git", "objects"] ∧
    r.info = r.base_dir ++ [".git", "objects", "info"] ∧
    r.pack = r.base_dir ++ [".git", "objects", "pack"] ∧
    (Repository.maybe_uninitialized_repo b).base_dir = b :=
  ⟨rfl, rfl, rfl, rfl, rfl, rfl, rfl, rfl, rfl, rfl⟩

/-- C8: in every run of the initializer the attempted creation steps
split into directory creations followed by file creations, and when
any file creation is attempted all four directory creations have
completed before it, in program order. -/
theorem init_dirs_before_files (cwd : Path) (fs0 : FS) :
    ∃ dt ft, initTrace cwd fs0 = dt ++ ft ∧
      (∀ e ∈ dt, e.isDirEvent = true) ∧
      (∀ e ∈ ft, e.isFileEvent = true) ∧
      (ft ≠ [] → dt =
        [Event.mkdirAll (Repository.maybe_uninitialized_repo cwd).heads,
         Event.mkdirAll (Repository.maybe_uninitialized_repo cwd).tags,
         Event.mkdirAll (Repository.maybe_uninitialized_repo cwd).info,
         Event.mkdirAll (Repository.maybe_uninitialized_repo cwd).pack]) := by
  simpa only [initTrace] using init_trace_split cwd fs0

theorem init_dirs_before_files_witness :
    ∃ dt ft, initTrace ["t"] [([], Entry.dir)] = dt ++ ft ∧
      (∀ e ∈ dt, e.isDirEvent = true) ∧
      (∀ e ∈ ft, e.isFileEvent = true) ∧
      (ft ≠ [] → dt =
        [Event.mkdirAll (Repository.maybe_uninitialized_repo ["t"]).heads,
         Event.mkdirAll (Repository.maybe_uninitialized_repo ["t"]).tags,
         Event.mkdirAll (Repository.maybe_uninitialized_repo ["t"]).info,
         Event.mkdirAll (Repository.maybe_uninitialized_repo ["t"]).pack]) :=
  init_dirs_before_files ["t"] [([], Entry.dir)]

theorem cfia_err_trace {fs fs1 : FS} {p : Path} {content : String}
    {t : List Event} {e : IoError}
    (h : create_file_if_absent fs p content = (fs1, t, some e)) :
    t = [Event.createFile p] := by
  unfold create_file_if_absent at h
  split at h
  · simp at h
  · split at h
    · simp only [Prod.mk.injEq] at h
      exact h.2.1.symm
    · rename_i fsA hfc
      rw [file_create_ok hfc,
        write_all_of_file content (FS.lookup_insert_self fs p (Entry.file ""))] at h
      simp only [Prod.mk.injEq] at h
      exact h.2.1.symm

theorem cefia_err_trace {fs fs1 : FS} {p : Path} {t : List Event} {e : IoError}
    (h : create_empty_file_if_absent fs p = (fs1, t, some e)) :
    t = [Event.createFile p] := by
  unfold create_empty_file_if_absent at h
  split at h
  · simp at h
  · split at h
    simp only [Prod.mk.injEq] at h
    exact h.2.1.symm

/-- C9: a failing run of the initializer aborts at the failing step and
surfaces its error as an IoFailure wrapping the exact underlying cause
returned by the failing primitive; no subsequent creation step runs
(the attempted-step trace ends at the failing step) and no rollback is
performed: entries present before the run are still present afterwards,
and the directories and files established by the completed steps of
this very run are still present in the final state. -/
theorem init_error_io_abort_and_no_rollback (cwd : Path) (fs0 fsR : FS)
    (t : List Event) (e : GitError)
    (hrun : init_git_repository cwd fs0 = (fsR, t, Except.error e)) :
    (∀ q ent, FS.lookup fs0 q = some ent → FS.lookup fsR q = some ent) ∧
    ∃ io, e = GitError.Io io ∧
      ((create_dir_all fs0 (cwd ++ [".git", "refs", "heads"]) =
          (fsR, some io) ∧
        t = [Event.mkdirAll (cwd ++ [".git", "refs", "heads"])]) ∨
       (∃ fs1,
         create_dir_all fs0 (cwd ++ [".git", "refs", "heads"]) = (fs1, none) ∧
         create_dir_all fs1 (cwd ++ [".git", "refs", "tags"]) =
           (fsR, some io) ∧
         t = [Event.mkdirAll (cwd ++ [".git", "refs", "heads"]),
              Event.mkdirAll (cwd ++ [".git", "refs", "tags"])] ∧
         FS.isDir fsR (cwd ++ [".git", "refs", "heads"]) = true) ∨
       (∃ fs1 fs2,
         create_dir_all fs0 (cwd ++ [".git", "refs", "heads"]) = (fs1, none) ∧
         create_dir_all fs1 (cwd ++ [".git", "refs", "tags"]) = (fs2, none) ∧
         create_dir_all fs2 (cwd ++ [".git", "objects", "info"]) =
           (fsR, some io) ∧
         t = [Event.mkdirAll (cwd ++ [".git", "refs", "heads"]),
              Event.mkdirAll (cwd ++ [".git", "refs", "tags"]),
              Event.mkdirAll (cwd ++ [".git", "objects", "info"])] ∧
         FS.isDir fsR (cwd ++ [".git", "refs", "heads"]) = true ∧
         FS.isDir fsR (cwd ++ [".git", "refs", "tags"]) = true) ∨
       (∃ fs1 fs2 fs3,
         create_dir_all fs0 (cwd ++ [".git", "refs", "heads"]) = (fs1, none) ∧
         create_dir_all fs1 (cwd ++ [".git", "refs", "tags"]) = (fs2, none) ∧
         create_dir_all fs2 (cwd ++ [".git", "objects", "info"]) =
           (fs3, none) ∧
         create_dir_all fs3 (cwd ++ [".git", "objects", "pack"]) =
           (fsR, some io) ∧
         t = [Event.mkdirAll (cwd ++ [".git", "refs", "heads"]),
              Event.mkdirAll (cwd ++ [".git", "refs", "tags"]),
              Event.mkdirAll (cwd ++ [".git", "objects", "info"]),
              Event.mkdirAll (cwd ++ [".git", "objects", "pack"])] ∧
         FS.isDir fsR (cwd ++ [".git", "refs", "heads"]) = true ∧
         FS.isDir fsR (cwd ++ [".git", "refs", "tags"]) = true ∧
         FS.isDir fsR (cwd ++ [".git", "objects", "info"]) = true) ∨
       (∃ fs1 fs2 fs3 fs4,
         create_dir_all fs0 (cwd ++ [".git", "refs", "heads"]) = (fs1, none) ∧
         create_dir_all fs1 (cwd ++ [".git", "refs", "tags"]) = (fs2, none) ∧
         create_dir_all fs2 (cwd ++ [".git", "objects", "info"]) =
           (fs3, none) ∧
         create_dir_all fs3 (cwd ++ [".git", "objects", "pack"]) =
           (fs4, none) ∧
         create_file_if_absent fs4 (cwd ++ [".git", "HEAD"]) head_content =
           (fsR, [Event.createFile (cwd ++ [".git", "HEAD"])], some io) ∧
         t = [Event.mkdirAll (cwd ++ [".git", "refs", "heads"]),
              Event.mkdirAll (cwd ++ [".git", "refs", "tags"]),
              Event.mkdirAll (cwd ++ [".git", "objects", "info"]),
              Event.mkdirAll (cwd ++ [".git", "objects", "pack"])] ++
             [Event.createFile (cwd ++ [".git", "HEAD"])] ∧
         FS.isDir fsR (cwd ++ [".git", "refs", "heads"]) = true ∧
         FS.isDir fsR (cwd ++ [".git", "refs", "tags"]) = true ∧
         FS.isDir fsR (cwd ++ [".git", "objects", "info"]) = true ∧
         FS.isDir fsR (cwd ++ [".git", "objects", "pack"]) = true) ∨
       (∃ fs1 fs2 fs3 fs4 fs5 t5,
         create_dir_all fs0 (cwd ++ [".git", "refs", "heads"]) = (fs1, none) ∧
         create_dir_all fs1 (cwd ++ [".git", "refs", "tags"]) = (fs2, none) ∧
         create_dir_all fs2 (cwd ++ [".git", "objects", "info"]) =
           (fs3, none) ∧
         create_dir_all fs3 (cwd ++ [".git", "objects", "pack"]) =
           (fs4, none) ∧
         create_file_if_absent fs4 (cwd ++ [".git", "HEAD"]) head_content =
           (fs5, t5, none) ∧
         create_file_if_absent fs5 (cwd ++ [".git", "description"])
             description_content =
           (fsR, [Event.createFile (cwd ++ [".git", "description"])],
             some io) ∧
         t = [Event.mkdirAll (cwd ++ [".git", "refs", "heads"]),
              Event.mkdirAll (cwd ++ [".git", "refs", "tags"]),
              Event.mkdirAll (cwd ++ [".git", "objects", "info"]),
              Event.mkdirAll (cwd ++ [".git", "objects", "pack"])] ++ t5 ++
             [Event.createFile (cwd ++ [".git", "description"])] ∧
         FS.isDir fsR (cwd ++ [".git", "refs", "heads"]) = true ∧
         FS.isDir fsR (cwd ++ [".git", "refs", "tags"]) = true ∧
         FS.isDir fsR (cwd ++ [".git", "objects", "info"]) = true ∧
         FS.isDir fsR (cwd ++ [".git", "objects", "pack"]) = true ∧
         FS.existsPath fsR (cwd ++ [".git", "HEAD"]) = true) ∨
       (∃ fs1 fs2 fs3 fs4 fs5 fs6 t5 t6,
         create_dir_all fs0 (cwd ++ [".git", "refs", "heads"]) = (fs1, none) ∧
         create_dir_all fs1 (cwd ++ [".git", "refs", "tags"]) = (fs2, none) ∧
         create_dir_all fs2 (cwd ++ [".git", "objects", "info"]) =
           (fs3, none) ∧
         create_dir_all fs3 (cwd ++ [".git", "objects", "pack"]) =
           (fs4, none) ∧
         create_file_if_absent fs4 (cwd ++ [".git", "HEAD"]) head_content =
           (fs5, t5, none) ∧
         create_file_if_absent fs5 (cwd ++ [".git", "description"])
             description_content = (fs6, t6, none) ∧
         create_empty_file_if_absent fs6 (cwd ++ [".git", "config"]) =
           (fsR, [Event.createFile (cwd ++ [".git", "config"])], some io) ∧
         t = [Event.mkdirAll (cwd ++ [".git", "refs", "heads"]),
              Event.mkdirAll (cwd ++ [".git", "refs", "tags"]),
              Event.mkdirAll (cwd ++ [".git", "objects", "info"]),
              Event.mkdirAll (cwd ++ [".git", "objects", "pack"])] ++ t5 ++
             t6 ++ [Event.createFile (cwd ++ [".git", "config"])] ∧
         FS.isDir fsR (cwd ++ [".git", "refs", "heads"]) = true ∧
         FS.isDir fsR (cwd ++ [".git", "refs", "tags"]) = true ∧
         FS.isDir fsR (cwd ++ [".git", "objects", "info"]) = true ∧
         FS.isDir fsR (cwd ++ [".git", "objects", "pack"]) = true ∧
         FS.existsPath fsR (cwd ++ [".git", "HEAD"]) = true ∧
         FS.existsPath fsR (cwd ++ [".git", "description"]) = true)) := by
  have hpres : ∀ q ent, FS.lookup fs0 q = some ent →
      FS.lookup fsR q = some ent := by
    intro q ent h
    have hh := init_preserves_entries cwd fs0 q ent h
    rw [hrun] at hh
    exact hh
  refine ⟨hpres, ?_⟩
  simp only [init_git_repository] at hrun
  split at hrun
  · rename_i fs1 e1 h1
    simp only [Prod.mk.injEq, Except.error.injEq] at hrun
    obtain ⟨hfs, htr, he⟩ := hrun
    refine ⟨e1, he.symm, Or.inl ⟨?_, htr.symm⟩⟩
    rw [← hfs]
    exact h1
  · rename_i fs1 h1
    split at hrun
    · rename_i fs2 e2 h2
      simp only [Prod.mk.injEq, Except.error.injEq] at hrun
      obtain ⟨hfs, htr, he⟩ := hrun
      refine ⟨e2, he.symm, Or.inr (Or.inl ⟨fs1, h1, ?_, htr.symm, ?_⟩)⟩
      · rw [← hfs]
        exact h2
      · rw [← hfs]
        exact cda_step_isDir h2 (create_dir_all_ok_isDir h1)
    · rename_i fs2 h2
      split at hrun
      · rename_i fs3 e3 h3
        simp only [Prod.mk.injEq, Except.error.injEq] at hrun
        obtain ⟨hfs, htr, he⟩ := hrun
        refine ⟨e3, he.symm, Or.inr (Or.inr (Or.inl
          ⟨fs1, fs2, h1, h2, ?_, htr.symm, ?_, ?_⟩))⟩
        · rw [← hfs]
          exact h3
        · rw [← hfs]
          exact cda_step_isDir h3 (cda_step_isDir h2
            (create_dir_all_ok_isDir h1))
        · rw [← hfs]
          exact cda_step_isDir h3 (create_dir_all_ok_isDir h2)
      · rename_i fs3 h3
        split at hrun
        · rename_i fs4 e4 h4
          simp only [Prod.mk.injEq, Except.error.injEq] at hrun
          obtain ⟨hfs, htr, he⟩ := hrun
          refine ⟨e4, he.symm, Or.inr (Or.inr (Or.inr (Or.inl
            ⟨fs1, fs2, fs3, h1, h2, h3, ?_, htr.symm, ?_, ?_, ?_⟩)))⟩
          · rw [← hfs]
            exact h4
          · rw [← hfs]
            exact cda_step_isDir h4 (cda_step_isDir h3 (cda_step_isDir h2
              (create_dir_all_ok_isDir h1)))
          · rw [← hfs]
            exact cda_step_isDir h4 (cda_step_isDir h3
              (create_dir_all_ok_isDir h2))
          · rw [← hfs]
            exact cda_step_isDir h4 (create_dir_all_ok_isDir h3)
        · rename_i fs4 h4
          split at hrun
          · rename_i fs5 t5 e5 h5
            simp only [Prod.mk.injEq, Except.error.injEq] at hrun
            obtain ⟨hfs, htr, he⟩ := hrun
            have ht5 := cfia_err_trace h5
            subst ht5
            refine ⟨e5, he.symm, Or.inr (Or.inr (Or.inr (Or.inr (Or.inl
              ⟨fs1, fs2, fs3, fs4, h1, h2, h3, h4, ?_, htr.symm,
                ?_, ?_, ?_, ?_⟩))))⟩
            · rw [← hfs]
              exact h5
            · rw [← hfs]
              exact cfia_step_isDir h5 (cda_step_isDir h4 (cda_step_isDir h3
                (cda_step_isDir h2 (create_dir_all_ok_isDir h1))))
            · rw [← hfs]
              exact cfia_step_isDir h5 (cda_step_isDir h4 (cda_step_isDir h3
                (create_dir_all_ok_isDir h2)))
            · rw [← hfs]
              exact cfia_step_isDir h5 (cda_step_isDir h4
                (create_dir_all_ok_isDir h3))
            · rw [← hfs]
              exact cfia_step_isDir h5 (create_dir_all_ok_isDir h4)
          · rename_i fs5 t5 h5
            split at hrun
            · rename_i fs6 t6 e6 h6
              simp only [Prod.mk.injEq, Except.error.injEq] at hrun
              obtain ⟨hfs, htr, he⟩ := hrun
              have ht6 := cfia_err_trace h6
              subst ht6
              refine ⟨e6, he.symm, Or.inr (Or.inr (Or.inr (Or.inr (Or.inr
                (Or.inl ⟨fs1, fs2, fs3, fs4, fs5, t5, h1, h2, h3, h4, h5, ?_,
                  htr.symm, ?_, ?_, ?_, ?_, ?_⟩)))))⟩
              · rw [← hfs]
                exact h6
              · rw [← hfs]
                exact cfia_step_isDir h6 (cfia_step_isDir h5 (cda_step_isDir h4
                  (cda_step_isDir h3 (cda_step_isDir h2
                    (create_dir_all_ok_isDir h1)))))
              · rw [← hfs]
                exact cfia_step_isDir h6 (cfia_step_isDir h5 (cda_step_isDir h4
                  (cda_step_isDir h3 (create_dir_all_ok_isDir h2))))
              · rw [← hfs]
                exact cfia_step_isDir h6 (cfia_step_isDir h5 (cda_step_isDir h4
                  (create_dir_all_ok_isDir h3)))
              · rw [← hfs]
                exact cfia_step_isDir h6 (cfia_step_isDir h5
                  (create_dir_all_ok_isDir h4))
              · rw [← hfs]
                exact cfia_step_exists h6 (cfia_ok_exists h5)
            · rename_i fs6 t6 h6
              split at hrun
              · rename_i fs7 t7 e7 h7
                simp only [Prod.mk.injEq, Except.error.injEq] at hrun
                obtain ⟨hfs, htr, he⟩ := hrun
                have ht7 := cefia_err_trace h7
                subst ht7
                refine ⟨e7, he.symm, Or.inr (Or.inr (Or.inr (Or.inr (Or.inr
                  (Or.inr ⟨fs1, fs2, fs3, fs4, fs5, fs6, t5, t6, h1, h2, h3,
                    h4, h5, h6, ?_, htr.symm, ?_, ?_, ?_, ?_, ?_, ?_⟩)))))⟩
                · rw [← hfs]
                  exact h7
                · rw [← hfs]
                  exact cefia_step_isDir h7 (cfia_step_isDir h6
                    (cfia_step_isDir h5 (cda_step_isDir h4 (cda_step_isDir h3
                      (cda_step_isDir h2 (create_dir_all_ok_isDir h1))))))
                · rw [← hfs]
                  exact cefia_step_isDir h7 (cfia_step_isDir h6
                    (cfia_step_isDir h5 (cda_step_isDir h4 (cda_step_isDir h3
                      (create_dir_all_ok_isDir h2)))))
                · rw [← hfs]
                  exact cefia_step_isDir h7 (cfia_step_isDir h6
                    (cfia_step_isDir h5 (cda_step_isDir h4
                      (create_dir_all_ok_isDir h3))))
                · rw [← hfs]
                  exact cefia_step_isDir h7 (cfia_step_isDir h6
                    (cfia_step_isDir h5 (create_dir_all_ok_isDir h4)))
                · rw [← hfs]
                  exact cefia_step_exists h7 (cfia_step_exists h6
                    (cfia_ok_exists h5))
                · rw [← hfs]
                  exact cefia_step_exists h7 (cfia_ok_exists h6)
              · rename_i fs7 t7 h7
                simp at hrun

theorem init_error_io_abort_and_no_rollback_witness :
    FS.lookup [([], Entry.dir), (["t"], Entry.file "blocker")] ["t"] =
      some (Entry.file "blocker") ∧
    ∃ io, (GitError.Io ⟨IoErrorKind.notADirectory, ["t", ".git"]⟩ : GitError) =
      GitError.Io io := by
  have h := init_error_io_abort_and_no_rollback ["t"]
    [([], Entry.dir), (["t"], Entry.file "blocker")]
    [([], Entry.dir), (["t"], Entry.file "blocker")]
    [Event.mkdirAll ["t", ".git", "refs", "heads"]]
    (GitError.Io ⟨IoErrorKind.notADirectory, ["t", ".git"]⟩)
    (by
      simp [init_git_repository, create_dir_all, create_dir,
        create_file_if_absent, create_empty_file_if_absent, file_create,
        write_all, FS.existsPath, FS.isDir, FS.lookup, FS.insert,
        Repository.heads, Repository.tags, Repository.info, Repository.pack,
        Repository.HEAD, Repository.description, Repository.config,
        Repository.maybe_uninitialized_repo, head_content,
        description_content])
  exact ⟨h.1 ["t"] (Entry.file "blocker") (by decide),
    h.2.imp fun io hio => hio.1⟩

/-- C10: when the initializer creates the description file, its content
is exactly the placeholder text, apostrophes included, ending in a
newline. -/
theorem init_description_exact_content (cwd : Path) (fs0 : FS)
    (hD : FS.lookup fs0
      (Repository.maybe_uninitialized_repo cwd).description = none)
    (hok : initResult cwd fs0 = Except.ok ()) :
    FS.lookup (initState cwd fs0)
        (Repository.maybe_uninitialized_repo cwd).description =
      some (Entry.file
        "Unnamed repository; edit this file \x27description\x27 to name the repository.\n") := by
  rcases hrun : init_git_repository cwd fs0 with ⟨fsR, tR, rR⟩
  have hr : rR = Except.ok () := by
    have hh := hok
    simp only [initResult] at hh
    rw [hrun] at hh
    exact hh
  subst hr
  have hstate : initState cwd fs0 = fsR := by
    simp only [initState]
    rw [hrun]
  rw [hstate]
  exact (init_ok_facts cwd fs0 fsR tR hrun).2.2.2.2.2.2.2.2.1 hD

theorem init_description_exact_content_witness :
    FS.lookup (initState ["u"] [([], Entry.dir)])
        (Repository.maybe_uninitialized_repo ["u"]).description =
      some (Entry.file
        "Unnamed repository; edit this file \x27description\x27 to name the repository.\n") :=
  init_description_exact_content ["u"] [([], Entry.dir)] (by decide)
    (by simp [initResult, init_git_repository, create_dir_all, create_dir,
      create_file_if_absent, create_empty_file_if_absent, file_create,
      write_all, FS.existsPath, FS.isDir, FS.lookup, FS.insert,
      Repository.heads, Repository.tags, Repository.info, Repository.pack,
      Repository.HEAD, Repository.description, Repository.config,
      Repository.maybe_uninitialized_repo, head_content, description_content])

end RustGit
